import Mathlib

/-!
Verification of the snapshot core of `snapshot.go` (package pebble):
the snapshot registry (`snapshotList`), the plain `Snapshot`, and the
`EventuallyFileOnlySnapshot` (EFOS) state machine.

The Go code is shallowly embedded: sequence numbers are `Nat` values kept
below `2^64` where the embedding of a construction step requires it
(`seqNum` is a `uint64`); the doubly-linked `snapshotList` is a `List Nat`
of the linked snapshots' sequence numbers in link order (head = `root.next`,
`pushBack` appends at the tail); pointer identity of a list member is its
position; reference-counted external collaborators (`readState`,
`version`) are opaque `Nat` ids, and every acquire/release or scheduling
call the Go code performs is recorded in an explicit `Effects` record.
A Go `panic` is the `Outcome.panicked` result, a returned error is
`Outcome.err`.
-/

namespace PebbleSnapshot

/-- `math.MaxUint64`, the sentinel returned by `snapshotList.earliest` on an
empty list. -/
def maxUint64 : Nat := 2 ^ 64 - 1

/-! ## snapshotList (the snapshot registry) -/

namespace snapshotList

/-- `snapshotList.earliest`: `v := math.MaxUint64; if !l.empty() { v =
l.root.next.seqNum }; return v` — the head entry's seqNum, or the sentinel
when empty. -/
def earliest (l : List Nat) : Nat :=
  match l with
  | [] => maxUint64
  | x :: _ => x

/-- `snapshotList.pushBack`: appends the snapshot at the tail
(`s.prev = l.root.prev; ...; s.next = &l.root`). The not-already-linked
check is a precondition on the Go side; a fresh element is always
unlinked, so the embedding is the successful path. -/
def pushBack (l : List Nat) (s : Nat) : List Nat :=
  l ++ [s]

/-- `snapshotList.empty`: `l.root.next == &l.root`. -/
def empty (l : List Nat) : Bool :=
  match l with
  | [] => true
  | _ :: _ => false

/-- `snapshotList.count`: walks the links from `root.next`. -/
def count (l : List Nat) : Nat :=
  l.length

end snapshotList

/-- `Snapshot.closeLocked` as it acts on the registry: `s.db.mu.snapshots.remove(s)`
followed by `if e := earliest(); e > s.seqNum { maybeScheduleCompactionPicker(pickElisionOnly) }`.
The removed snapshot is identified by its position `i` in the list (pointer
identity); the returned `Bool` is whether the elision-only compaction
scheduling call was made (the Go code makes it at most once per close). -/
def closeLocked (l : List Nat) (i : Nat) : List Nat × Bool :=
  let l2 := l.eraseIdx i
  (l2, decide (snapshotList.earliest l2 > l.getD i 0))

/-- Registries reachable from the empty list (as `init`ialised) by `pushBack`
of snapshots created at the current visible sequence number — so each pushed
`seqNum` is a `uint64` at least as large as every previously pushed one —
interleaved with arbitrary removals. The second component is the largest
sequence number pushed so far (`0` initially). -/
inductive ReachableReg : List Nat → Nat → Prop where
  | init : ReachableReg [] 0
  | push (l b s) : ReachableReg l b → b ≤ s → s < 2 ^ 64 → ReachableReg (l ++ [s]) s
  | remove (l b i) : ReachableReg l b → ReachableReg (l.eraseIdx i) b

/-- Invariant of reachable registries: the linked seqNums are sorted
(nondecreasing), bounded by the last push, and are `uint64` values. -/
theorem reachableReg_invariant {l : List Nat} {b : Nat} (h : ReachableReg l b) :
    l.Sorted (· ≤ ·) ∧ ∀ x ∈ l, x ≤ b ∧ x < 2 ^ 64 := by
  induction h with
  | init => simp
  | push l b s _ hbs hs ih =>
      obtain ⟨hsort, hmem⟩ := ih
      constructor
      · refine List.pairwise_append.mpr ⟨hsort, List.pairwise_singleton _ _, ?_⟩
        intro x hx y hy
        rw [List.mem_singleton] at hy
        subst hy
        exact le_trans (hmem x hx).1 hbs
      · intro x hx
        rcases List.mem_append.mp hx with hx | hx
        · exact ⟨le_trans (hmem x hx).1 hbs, (hmem x hx).2⟩
        · rw [List.mem_singleton] at hx
          subst hx
          exact ⟨le_refl _, hs⟩
  | remove l b i _ ih =>
      obtain ⟨hsort, hmem⟩ := ih
      exact ⟨hsort.sublist (List.eraseIdx_sublist l i),
        fun x hx => hmem x ((List.eraseIdx_sublist l i).mem hx)⟩

/-! ## Errors, outcomes, effects -/

/-- The returned error values of the snapshot core: `ErrClosed` and
`ErrSnapshotExcised`. -/
inductive PErr where
  | errClosed
  | errSnapshotExcised
deriving DecidableEq

/-- The result of a Go call: a normal return, a returned error, or a
`panic` (fatal). -/
inductive Outcome (α : Type) where
  | ok : α → Outcome α
  | err : PErr → Outcome α
  | panicked : String → Outcome α
deriving DecidableEq

/-- Whether an outcome is a panic. -/
def Outcome.isPanic {α : Type} : Outcome α → Bool
  | .panicked _ => true
  | _ => false

/-- The externally visible resource operations a call performs, counted:
`version.Ref` / `version.UnrefLocked`, `readState` acquisition
(`loadReadState`) / `readState.unrefLocked`, calls to the wrapped
snapshot's `closeLocked` (which removes its registry slot), and calls to
`maybeScheduleObsoleteTableDeletionLocked`. -/
structure Effects where
  versRefs : Nat
  versUnrefs : Nat
  readStateRefs : Nat
  readStateUnrefs : Nat
  snapCloseLockedCalls : Nat
  obsoleteDeletionCalls : Nat
deriving DecidableEq

/-- No resource operation performed. -/
def Effects.zero : Effects :=
  ⟨0, 0, 0, 0, 0, 0⟩

/-! ## EventuallyFileOnlySnapshot state -/

/-- The `EventuallyFileOnlySnapshot` struct: the mutually exclusive
resource fields `snap` (the wrapped snapshot, held as its seqNum),
`readState` and `vers` (opaque ids of the ref-counted collaborators), the
monotonic `excised` flag, whether the one-shot `closed` channel has been
closed, whether the `db` field is nil (it is set at construction and no
code of the file ever clears it), and the immutable `seqNum`. -/
structure EventuallyFileOnlySnapshot where
  snap : Option Nat
  readState : Option Nat
  vers : Option Nat
  excised : Bool
  closed : Bool
  dbIsNil : Bool
  seqNum : Nat
deriving DecidableEq

namespace EventuallyFileOnlySnapshot

/-- `transitionToFileOnlySnapshot(vers)`: if the `closed` channel has fired,
`vers.UnrefLocked()` and return `ErrClosed` with no state change; else if
`es.mu.snap == nil`, panic (double transition); else install `vers`, clear
`snap`/`readState`, broadcast, then `oldReadState.unrefLocked()` and
`oldSnap.closeLocked()`. -/
def transitionToFileOnlySnapshot (es : EventuallyFileOnlySnapshot) (vers : Nat) :
    Outcome Unit × EventuallyFileOnlySnapshot × Effects :=
  if es.closed then
    (.err .errClosed, es, { Effects.zero with versUnrefs := 1 })
  else if es.snap = none then
    (.panicked "pebble: tried to transition an eventually-file-only-snapshot twice",
      es, Effects.zero)
  else
    (.ok (), { es with vers := some vers, snap := none, readState := none },
      { Effects.zero with readStateUnrefs := 1, snapCloseLockedCalls := 1 })

/-- `releaseReadState()`: panics unless `excised` is already true; then, if
`es.mu.readState != nil`, calls `unrefLocked()` and
`maybeScheduleObsoleteTableDeletionLocked()`. Note the Go code does NOT
set `es.mu.readState = nil` afterwards. -/
def releaseReadState (es : EventuallyFileOnlySnapshot) :
    Outcome Unit × EventuallyFileOnlySnapshot × Effects :=
  if !es.excised then
    (.panicked "pebble: releasing read state of eventually-file-only-snapshot but was not excised",
      es, Effects.zero)
  else if es.readState.isSome then
    (.ok (), es, { Effects.zero with readStateUnrefs := 1, obsoleteDeletionCalls := 1 })
  else
    (.ok (), es, Effects.zero)

/-- `EventuallyFileOnlySnapshot.Close()`: `close(es.closed)` first — a second
close of a Go channel panics — then release whichever resources are
non-nil: `snap.closeLocked()`, `readState.unrefLocked()` (plus obsolete
table deletion scheduling), `vers.UnrefLocked()`. The resource fields are
not cleared. -/
def Close (es : EventuallyFileOnlySnapshot) :
    Outcome Unit × EventuallyFileOnlySnapshot × Effects :=
  if es.closed then
    (.panicked "close of closed channel", es, Effects.zero)
  else
    (.ok (), { es with closed := true },
      { Effects.zero with
          snapCloseLockedCalls := if es.snap.isSome then 1 else 0,
          readStateUnrefs := if es.readState.isSome then 1 else 0,
          obsoleteDeletionCalls := if es.readState.isSome then 1 else 0,
          versUnrefs := if es.vers.isSome then 1 else 0 })

/-- `EventuallyFileOnlySnapshot.Get`: `panic("unimplemented")` for every key
and every state. -/
def Get (es : EventuallyFileOnlySnapshot) (key : Nat) :
    Outcome (Nat × Nat) :=
  .panicked "unimplemented"

end EventuallyFileOnlySnapshot

/-- `snapshotIterOpts`: the options an iterator is constructed with — the
sequence number and whichever of `vers` / `readState` the caller pinned. -/
structure snapshotIterOpts where
  seqNum : Nat
  vers : Option Nat
  readState : Option Nat
deriving DecidableEq

namespace EventuallyFileOnlySnapshot

/-- `EventuallyFileOnlySnapshot.NewIterWithContext`: panic with `ErrClosed`
if the `closed` channel has fired; if `es.mu.vers != nil` build the
iterator over `vers`; otherwise return `ErrSnapshotExcised` if `excised`,
else build the iterator over `readState`. The successful result is the
`snapshotIterOpts` handed to `db.newIter`. -/
def NewIterWithContext (es : EventuallyFileOnlySnapshot) :
    Outcome snapshotIterOpts :=
  if es.closed then
    .panicked "ErrClosed"
  else match es.vers with
  | some v => .ok { seqNum := es.seqNum, vers := some v, readState := none }
  | none =>
      if es.excised then
        .err .errSnapshotExcised
      else
        .ok { seqNum := es.seqNum, vers := none, readState := es.readState }

/-- `EventuallyFileOnlySnapshot.ScanInternal`: panic with `ErrClosed` if
`es.db == nil` (no code path of the file ever sets it to nil); return
`ErrSnapshotExcised` whenever `excised` is set — this check precedes the
phase dispatch — else build the internal iterator over `vers` if set,
otherwise over `readState`. The successful result is the
`snapshotIterOpts` handed to `db.newInternalIter`. -/
def ScanInternal (es : EventuallyFileOnlySnapshot) :
    Outcome snapshotIterOpts :=
  if es.dbIsNil then
    .panicked "ErrClosed"
  else if es.excised then
    .err .errSnapshotExcised
  else match es.vers with
  | some v => .ok { seqNum := es.seqNum, vers := some v, readState := none }
  | none => .ok { seqNum := es.seqNum, vers := none, readState := es.readState }

end EventuallyFileOnlySnapshot

/-! ## DB state and EFOS construction -/

/-- The slice of `DB` state `makeEventuallyFileOnlySnapshot` reads and
writes: the visible sequence number, the memtable queue (opaque memtable
ids), the current version and read state (opaque ids), and the snapshot
registry. -/
structure DB where
  visibleSeqNum : Nat
  memQueue : List Nat
  currentVersion : Nat
  readState : Nat
  snapshots : List Nat
deriving DecidableEq

/-- `DB.makeEventuallyFileOnlySnapshot(keyRanges, internalKeyRanges)`:
`isFileOnly := true`, then for each memtable of the queue
`if ingestMemtableOverlaps(cmp, mem, internalKeyRanges) { isFileOnly =
false; break }`. `ingestMemtableOverlaps` is outside this file, so the
embedding takes the overlap test as the function `overlaps`. If file-only:
store the current version in `vers` and `Ref()` it. Otherwise: build a
`Snapshot` at `seqNum` owned by the EFOS, store it with
`loadReadState()`'s result, and `pushBack` the snapshot into the
registry. Returns the EFOS, the updated `DB`, and the acquire effects. -/
def DB.makeEventuallyFileOnlySnapshot (d : DB) (overlaps : Nat → Bool) :
    EventuallyFileOnlySnapshot × DB × Effects :=
  let isFileOnly := !(d.memQueue.any overlaps)
  let seqNum := d.visibleSeqNum
  if isFileOnly then
    ({ snap := none, readState := none, vers := some d.currentVersion,
       excised := false, closed := false, dbIsNil := false, seqNum := seqNum },
     d, { Effects.zero with versRefs := 1 })
  else
    ({ snap := some seqNum, readState := some d.readState, vers := none,
       excised := false, closed := false, dbIsNil := false, seqNum := seqNum },
     { d with snapshots := snapshotList.pushBack d.snapshots seqNum },
     { Effects.zero with readStateRefs := 1 })

/-! ## Plain Snapshot -/

/-- The `Snapshot` struct as its own methods read it: whether `s.db` is
nil (`closeLocked` sets it to nil) and the immutable `seqNum`. -/
structure Snapshot where
  dbIsNil : Bool
  seqNum : Nat
deriving DecidableEq

namespace Snapshot

/-- `Snapshot.Get`: `if s.db == nil { panic(ErrClosed) }`, then delegates
to `s.db.getInternal(key, nil, s)`; the successful result records the
delegation at the snapshot's seqNum. -/
def Get (s : Snapshot) (key : Nat) : Outcome (Nat × Nat) :=
  if s.dbIsNil then .panicked "ErrClosed" else .ok (s.seqNum, key)

/-- `Snapshot.NewIterWithContext`: `if s.db == nil { panic(ErrClosed) }`,
then `db.newIter` with `snapshotIterOpts{seqNum: s.seqNum}`. -/
def NewIterWithContext (s : Snapshot) : Outcome snapshotIterOpts :=
  if s.dbIsNil then .panicked "ErrClosed"
  else .ok { seqNum := s.seqNum, vers := none, readState := none }

/-- `Snapshot.ScanInternal`: `if s.db == nil { panic(ErrClosed) }`, then
`db.newInternalIter` with `snapshotIterOpts{seqNum: s.seqNum}`. -/
def ScanInternal (s : Snapshot) : Outcome snapshotIterOpts :=
  if s.dbIsNil then .panicked "ErrClosed"
  else .ok { seqNum := s.seqNum, vers := none, readState := none }

/-- `Snapshot.Close`: `if s.db == nil { panic(ErrClosed) }`, then
`closeLocked`, which removes `s` from the registry (see
`PebbleSnapshot.closeLocked` for the registry action) and sets
`s.db = nil`. -/
def Close (s : Snapshot) : Outcome Unit × Snapshot :=
  if s.dbIsNil then (.panicked "ErrClosed", s)
  else (.ok (), { s with dbIsNil := true })

end Snapshot

/-! ## Reachable EFOS states -/

/-- The states an EFOS can be in, from construction on: the two
construction outcomes of `makeEventuallyFileOnlySnapshot`; the state after
a `transitionToFileOnlySnapshot` call (whatever branch it takes); the
excise path marking the EFOS excised (`es.excised.Store(true)`, performed
by the ingest-and-excise path outside this file per the spec, then
`releaseReadState`, which writes no field); and `Close`. No other code
writes the fields. -/
inductive ReachableE : EventuallyFileOnlySnapshot → Prop where
  | make (d : DB) (overlaps : Nat → Bool) :
      ReachableE (d.makeEventuallyFileOnlySnapshot overlaps).1
  | transition (es : EventuallyFileOnlySnapshot) (v : Nat) :
      ReachableE es → ReachableE (es.transitionToFileOnlySnapshot v).2.1
  | excise (es : EventuallyFileOnlySnapshot) :
      ReachableE es → ReachableE { es with excised := true }
  | close (es : EventuallyFileOnlySnapshot) :
      ReachableE es → ReachableE es.Close.2.1

/-- The single-phase predicate: either the memtable-pinned pair
`(snap, readState)` is populated with `vers` nil, or `vers` is populated
with `snap` and `readState` nil. -/
def singlePhase (es : EventuallyFileOnlySnapshot) : Prop :=
  (es.snap.isSome ∧ es.readState.isSome ∧ es.vers = none) ∨
  (es.vers.isSome ∧ es.snap = none ∧ es.readState = none)

/-- Every reachable EFOS state has a non-nil `db` field and satisfies the
single-phase predicate (the `Close`d state included: `Close` releases but
does not clear the fields). -/
theorem reachableE_invariant {es : EventuallyFileOnlySnapshot}
    (h : ReachableE es) : es.dbIsNil = false ∧ singlePhase es := by
  induction h with
  | make d overlaps =>
      by_cases hov : d.memQueue.any overlaps <;>
        simp [DB.makeEventuallyFileOnlySnapshot, hov, singlePhase]
  | transition es v _ ih =>
      unfold EventuallyFileOnlySnapshot.transitionToFileOnlySnapshot
      by_cases hc : es.closed
      · simpa [hc] using ih
      · by_cases hs : es.snap = none
        · simpa [hc, hs] using ih
        · refine ⟨by simp [hc, hs, ih.1], ?_⟩
          simp only [hc, hs, if_false]
          exact Or.inr ⟨rfl, rfl, rfl⟩
  | excise es _ ih =>
      obtain ⟨hdb, hp⟩ := ih
      exact ⟨hdb, hp⟩
  | close es _ ih =>
      obtain ⟨hdb, hp⟩ := ih
      unfold EventuallyFileOnlySnapshot.Close
      by_cases hc : es.closed
      · simpa [hc] using ⟨hdb, hp⟩
      · simp only [hc, if_false]
        exact ⟨hdb, hp⟩

/-! ## Claim theorems -/

/-- C2: for every reachable, not-yet-closed EFOS, exactly one of the two
resource states is populated — either `(snap, readState)` with `vers` nil,
or `vers` with `snap` and `readState` nil — and once the
`(snap, readState)` pair is cleared, a further call to
`transitionToFileOnlySnapshot` on the not-yet-closed EFOS panics rather
than repopulating the pair. -/
theorem efos_single_phase_no_repopulation
    (es : EventuallyFileOnlySnapshot) (h : ReachableE es) (hc : es.closed = false) :
    singlePhase es ∧
    (es.snap = none → ∀ v : Nat,
      (es.transitionToFileOnlySnapshot v).1 =
        Outcome.panicked "pebble: tried to transition an eventually-file-only-snapshot twice") := by
  refine ⟨(reachableE_invariant h).2, ?_⟩
  intro hs v
  simp [EventuallyFileOnlySnapshot.transitionToFileOnlySnapshot, hc, hs]

/-- Witness for C2: an EFOS constructed file-only (empty memtable queue) is
reachable, not closed, satisfies the single-phase predicate, and a
transition attempt on it (its `snap` is nil) panics. -/
theorem efos_single_phase_no_repopulation_witness :
    singlePhase ((DB.mk 10 [] 7 3 []).makeEventuallyFileOnlySnapshot (fun _ => false)).1 ∧
    (((DB.mk 10 [] 7 3 []).makeEventuallyFileOnlySnapshot
        (fun _ => false)).1.transitionToFileOnlySnapshot 42).1 =
      Outcome.panicked "pebble: tried to transition an eventually-file-only-snapshot twice" := by
  have h := efos_single_phase_no_repopulation
    ((DB.mk 10 [] 7 3 []).makeEventuallyFileOnlySnapshot (fun _ => false)).1
    (ReachableE.make _ _) rfl
  exact ⟨h.1, h.2 rfl 42⟩

/-- C4: `transitionToFileOnlySnapshot` on an EFOS whose closed signal has
fired releases the caller's version reference exactly once (one
`UnrefLocked`, no other resource operation), returns `ErrClosed`, and
leaves the state — `snap`, `readState` and `vers` included — unchanged. -/
theorem transition_on_closed_efos
    (es : EventuallyFileOnlySnapshot) (v : Nat) (hc : es.closed = true) :
    es.transitionToFileOnlySnapshot v =
      (Outcome.err PErr.errClosed, es, { Effects.zero with versUnrefs := 1 }) := by
  simp [EventuallyFileOnlySnapshot.transitionToFileOnlySnapshot, hc]

/-- Witness for C4: a concrete closed file-only EFOS. -/
theorem transition_on_closed_efos_witness :
    EventuallyFileOnlySnapshot.transitionToFileOnlySnapshot
        ⟨none, none, some 5, false, true, false, 9⟩ 11 =
      (Outcome.err PErr.errClosed, ⟨none, none, some 5, false, true, false, 9⟩,
        { Effects.zero with versUnrefs := 1 }) :=
  transition_on_closed_efos ⟨none, none, some 5, false, true, false, 9⟩ 11 rfl

/-- C5: on a reachable, not-yet-closed EFOS, `Close` succeeds and releases
exactly the live phase's resources once — in the memtable-pinned phase one
`closeLocked` of the wrapped snapshot (removing its registry slot) and one
read-state release (with one obsolete-table-deletion scheduling call), in
the file-only phase one version release — and a second `Close` on the
resulting EFOS panics. -/
theorem efos_close_releases_live_phase_once
    (es : EventuallyFileOnlySnapshot) (h : ReachableE es) (hc : es.closed = false) :
    es.Close = (Outcome.ok (), { es with closed := true },
        if es.snap.isSome then
          { Effects.zero with
              readStateUnrefs := 1, snapCloseLockedCalls := 1, obsoleteDeletionCalls := 1 }
        else
          { Effects.zero with versUnrefs := 1 }) ∧
    es.Close.2.1.Close.1 = Outcome.panicked "close of closed channel" := by
  rcases (reachableE_invariant h).2 with ⟨h1, h2, h3⟩ | ⟨h1, h2, h3⟩ <;>
    constructor <;>
      simp [EventuallyFileOnlySnapshot.Close, Effects.zero, hc, h1, h2, h3]

/-- Witness for C5: a concrete memtable-pinned EFOS (one overlapping
memtable at construction); closing it closes the wrapped snapshot and
releases the read state once, and a second close panics. -/
theorem efos_close_releases_live_phase_once_witness :
    ((DB.mk 10 [0] 7 3 []).makeEventuallyFileOnlySnapshot (fun _ => true)).1.Close =
      (Outcome.ok (),
        { ((DB.mk 10 [0] 7 3 []).makeEventuallyFileOnlySnapshot (fun _ => true)).1 with
            closed := true },
        { Effects.zero with
            readStateUnrefs := 1, snapCloseLockedCalls := 1, obsoleteDeletionCalls := 1 }) ∧
    ((DB.mk 10 [0] 7 3 []).makeEventuallyFileOnlySnapshot
        (fun _ => true)).1.Close.2.1.Close.1 =
      Outcome.panicked "close of closed channel" := by
  exact efos_close_releases_live_phase_once
    ((DB.mk 10 [0] 7 3 []).makeEventuallyFileOnlySnapshot (fun _ => true)).1
    (ReachableE.make _ _) rfl

/-- C1 (amended): on a live EFOS, `NewIterWithContext` in file-only phase
(`vers` populated) constructs its iterator even when `excised` is true,
and in memtable-pinned phase with `excised` true returns
`ErrSnapshotExcised`; `ScanInternal`, however, returns
`ErrSnapshotExcised` whenever `excised` is true, in the file-only phase
included — its excised check precedes the phase dispatch. -/
theorem efos_read_paths_under_excision
    (es : EventuallyFileOnlySnapshot) (hdb : es.dbIsNil = false)
    (hc : es.closed = false) :
    (es.vers.isSome = true → es.NewIterWithContext =
        Outcome.ok { seqNum := es.seqNum, vers := es.vers, readState := none }) ∧
    (es.excised = true → es.ScanInternal = Outcome.err PErr.errSnapshotExcised) ∧
    (es.vers = none → es.excised = true →
        es.NewIterWithContext = Outcome.err PErr.errSnapshotExcised) := by
  refine ⟨?_, ?_, ?_⟩
  · intro hv
    cases hes : es.vers with
    | none => rw [hes] at hv; simp at hv
    | some v =>
        simp [EventuallyFileOnlySnapshot.NewIterWithContext, hc, hes]
  · intro hx
    simp [EventuallyFileOnlySnapshot.ScanInternal, hdb, hx]
  · intro hv hx
    simp [EventuallyFileOnlySnapshot.NewIterWithContext, hc, hv, hx]

/-- Counterexample to C1 as stated: a live file-only EFOS (`vers`
populated) with `excised` set. `ScanInternal` does not construct its
iterator; it returns `ErrSnapshotExcised`. -/
theorem efos_read_paths_under_excision_cex :
    (EventuallyFileOnlySnapshot.ScanInternal
        ⟨none, none, some 7, true, false, false, 10⟩ =
      Outcome.err PErr.errSnapshotExcised) ∧
    (EventuallyFileOnlySnapshot.mk none none (some 7) true false false 10).vers.isSome
      = true ∧
    (EventuallyFileOnlySnapshot.mk none none (some 7) true false false 10).closed
      = false :=
  ⟨rfl, rfl, rfl⟩

/-- Witness for C1 (amended): the three branches at concrete live EFOS
states — file-only and excised (`NewIterWithContext` succeeds over the
version), memtable-pinned and excised (`ScanInternal` and
`NewIterWithContext` both return `ErrSnapshotExcised`). -/
theorem efos_read_paths_under_excision_witness :
    EventuallyFileOnlySnapshot.NewIterWithContext
        ⟨none, none, some 7, true, false, false, 10⟩ =
      Outcome.ok { seqNum := 10, vers := some 7, readState := none } ∧
    EventuallyFileOnlySnapshot.ScanInternal
        ⟨some 10, some 3, none, true, false, false, 10⟩ =
      Outcome.err PErr.errSnapshotExcised ∧
    EventuallyFileOnlySnapshot.NewIterWithContext
        ⟨some 10, some 3, none, true, false, false, 10⟩ =
      Outcome.err PErr.errSnapshotExcised := by
  refine ⟨(efos_read_paths_under_excision
      ⟨none, none, some 7, true, false, false, 10⟩ rfl rfl).1 rfl,
    (efos_read_paths_under_excision
      ⟨some 10, some 3, none, true, false, false, 10⟩ rfl rfl).2.1 rfl,
    (efos_read_paths_under_excision
      ⟨some 10, some 3, none, true, false, false, 10⟩ rfl rfl).2.2 rfl rfl⟩

/-- C3: evaluation at the failing input. An EFOS in memtable-pinned phase
is `Close`d; `ScanInternal` on the closed EFOS does not panic — the
`es.db == nil` sentinel it checks is never set by `Close` — and instead
proceeds to build an iterator from the already-released read state.
(`Get`, `NewIterWithContext` and `ScanInternal` on a closed plain
`Snapshot`, and `NewIterWithContext` on a closed EFOS, do panic as the
claim says.) -/
theorem efos_scanInternal_after_close_no_panic :
    (EventuallyFileOnlySnapshot.Close
        ⟨some 10, some 3, none, false, false, false, 10⟩).2.1.ScanInternal =
      Outcome.ok { seqNum := 10, vers := none, readState := some 3 } ∧
    (EventuallyFileOnlySnapshot.Close
        ⟨some 10, some 3, none, false, false, false, 10⟩).2.1.ScanInternal.isPanic
      = false :=
  ⟨rfl, rfl⟩

/-- C8: `makeEventuallyFileOnlySnapshot` reads the visible sequence number
as the EFOS's `seqNum`; when no memtable of the queue overlaps the
protected ranges it constructs the EFOS in file-only phase — the current
version in `vers` with exactly one reference acquired, no snapshot
created, db state (the registry included) unchanged — and otherwise in
memtable-pinned phase — a wrapped snapshot at `seqNum` pushed onto the
registry and one read-state reference acquired and stored. -/
theorem make_efos_phase_selection (d : DB) (overlaps : Nat → Bool) :
    (d.makeEventuallyFileOnlySnapshot overlaps).1.seqNum = d.visibleSeqNum ∧
    (d.memQueue.any overlaps = false →
      (d.makeEventuallyFileOnlySnapshot overlaps).1.vers = some d.currentVersion ∧
      (d.makeEventuallyFileOnlySnapshot overlaps).1.snap = none ∧
      (d.makeEventuallyFileOnlySnapshot overlaps).1.readState = none ∧
      (d.makeEventuallyFileOnlySnapshot overlaps).2.1 = d ∧
      (d.makeEventuallyFileOnlySnapshot overlaps).2.2 =
        { Effects.zero with versRefs := 1 }) ∧
    (d.memQueue.any overlaps = true →
      (d.makeEventuallyFileOnlySnapshot overlaps).1.snap = some d.visibleSeqNum ∧
      (d.makeEventuallyFileOnlySnapshot overlaps).1.readState = some d.readState ∧
      (d.makeEventuallyFileOnlySnapshot overlaps).1.vers = none ∧
      (d.makeEventuallyFileOnlySnapshot overlaps).2.1.snapshots =
        snapshotList.pushBack d.snapshots d.visibleSeqNum ∧
      (d.makeEventuallyFileOnlySnapshot overlaps).2.2 =
        { Effects.zero with readStateRefs := 1 }) := by
  by_cases hov : d.memQueue.any overlaps <;>
    simp [DB.makeEventuallyFileOnlySnapshot, hov]

/-- Witness for C8: a file-only construction over an empty memtable queue
and a memtable-pinned construction over an overlapping memtable. -/
theorem make_efos_phase_selection_witness :
    ((DB.mk 10 [] 7 3 []).makeEventuallyFileOnlySnapshot (fun _ => false)).1.vers =
      some 7 ∧
    ((DB.mk 10 [5] 7 3 []).makeEventuallyFileOnlySnapshot (fun _ => true)).1.snap =
      some 10 ∧
    ((DB.mk 10 [5] 7 3 []).makeEventuallyFileOnlySnapshot (fun _ => true)).2.1.snapshots =
      snapshotList.pushBack [] 10 := by
  refine ⟨((make_efos_phase_selection (DB.mk 10 [] 7 3 [])
      (fun _ => false)).2.1 rfl).1, ?_, ?_⟩
  · exact ((make_efos_phase_selection (DB.mk 10 [5] 7 3 [])
      (fun _ => true)).2.2 rfl).1
  · exact ((make_efos_phase_selection (DB.mk 10 [5] 7 3 [])
      (fun _ => true)).2.2 rfl).2.2.2.1

/-- C9: evaluation at the failing input. On an excised memtable-pinned
EFOS, `releaseReadState` releases the read-state reference — but it does
not clear the `readState` field, so a second call releases it again (one
more `unrefLocked`) instead of being the no-op the claim (and the Go
method's own "Safe for idempotent calls" comment) describes. -/
theorem releaseReadState_second_call_unrefs_again :
    (EventuallyFileOnlySnapshot.releaseReadState
        ⟨some 10, some 3, none, true, false, false, 10⟩).2.2.readStateUnrefs = 1 ∧
    (EventuallyFileOnlySnapshot.releaseReadState
        (EventuallyFileOnlySnapshot.releaseReadState
          ⟨some 10, some 3, none, true, false, false, 10⟩).2.1).2.2.readStateUnrefs
      = 1 :=
  ⟨rfl, rfl⟩

/-- C10: `EventuallyFileOnlySnapshot.Get` panics with "unimplemented" for
every key and every EFOS state. -/
theorem efos_get_always_panics (es : EventuallyFileOnlySnapshot) (key : Nat) :
    es.Get key = Outcome.panicked "unimplemented" :=
  rfl

/-- C6 (amended): on every registry reachable by in-order `pushBack`
insertions and removals, `earliest()` is a lower bound of the linked
seqNums and is one of them when the list is non-empty (it returns their
minimum), and it returns the sentinel `2^64 - 1` when the list is empty;
the converse — sentinel only when empty — holds provided every linked
seqNum is strictly below `2^64 - 1`. -/
theorem earliest_is_minimum
    (l : List Nat) (b : Nat) (h : ReachableReg l b) :
    (∀ x ∈ l, snapshotList.earliest l ≤ x) ∧
    (l ≠ [] → snapshotList.earliest l ∈ l) ∧
    (l = [] → snapshotList.earliest l = maxUint64) ∧
    ((∀ x ∈ l, x < maxUint64) → (snapshotList.earliest l = maxUint64 ↔ l = [])) := by
  have hsort := (reachableReg_invariant h).1
  cases l with
  | nil => simp [snapshotList.earliest]
  | cons a rest =>
      rw [List.sorted_cons] at hsort
      refine ⟨?_, ?_, ?_, ?_⟩
      · intro x hx
        rcases List.mem_cons.mp hx with rfl | hx
        · exact le_refl _
        · exact hsort.1 x hx
      · intro _
        exact List.mem_cons_self a rest
      · intro hcon
        simp at hcon
      · intro hb
        constructor
        · intro he
          exfalso
          have ha := hb a (List.mem_cons_self a rest)
          have : snapshotList.earliest (a :: rest) = a := rfl
          omega
        · intro hcon
          simp at hcon

/-- Counterexample to C6 as stated: pushing a single snapshot whose seqNum
is `math.MaxUint64` (a `uint64` value `pushBack` accepts, trivially in
nondecreasing order) yields a reachable non-empty registry on which
`earliest()` returns the sentinel — so the sentinel is not returned only
when the list is empty. -/
theorem earliest_sentinel_on_nonempty_list :
    ReachableReg (snapshotList.pushBack [] maxUint64) maxUint64 ∧
    snapshotList.earliest (snapshotList.pushBack [] maxUint64) = maxUint64 ∧
    snapshotList.pushBack [] maxUint64 ≠ [] := by
  refine ⟨?_, rfl, by simp [snapshotList.pushBack]⟩
  exact ReachableReg.push [] 0 maxUint64 ReachableReg.init (Nat.zero_le _)
    (by norm_num [maxUint64])

/-- Witness for C6 (amended): the registry `[3, 5]` (pushed in order). Its
`earliest()` is a lower bound of `5`, a member of the list, and — all
seqNums being below the sentinel — equals the sentinel iff the list is
empty (it does not). -/
theorem earliest_is_minimum_witness :
    snapshotList.earliest [3, 5] ≤ 5 ∧
    snapshotList.earliest [3, 5] ∈ ([3, 5] : List Nat) ∧
    (snapshotList.earliest [3, 5] = maxUint64 ↔ ([3, 5] : List Nat) = []) := by
  have hreach : ReachableReg [3, 5] 5 :=
    ReachableReg.push [3] 3 5
      (ReachableReg.push [] 0 3 ReachableReg.init (Nat.zero_le _) (by norm_num))
      (by norm_num) (by norm_num)
  have h := earliest_is_minimum [3, 5] 5 hreach
  exact ⟨h.1 5 (by simp), h.2.1 (by simp),
    h.2.2.2 (by intro x hx; fin_cases hx <;> norm_num [maxUint64])⟩

/-- C7 (amended): on every reachable registry, closing (`closeLocked`) the
snapshot at position `i` makes the elision-only-compaction scheduling call
exactly when the post-removal `earliest()` strictly exceeds the closed
snapshot's seqNum — so closing a snapshot that is not the earliest (head)
entry never triggers it, while closing the head entry triggers it exactly
once iff the registry's earliest seqNum strictly rises past the closed
seqNum (a rise to the sentinel from seqNum `2^64 - 1` itself does not
qualify). -/
theorem closeLocked_elision_trigger
    (l : List Nat) (b : Nat) (h : ReachableReg l b) (i : Nat) (hi : i < l.length) :
    ((closeLocked l i).2 = true ↔
      snapshotList.earliest (l.eraseIdx i) > l.getD i 0) ∧
    (0 < i → (closeLocked l i).2 = false) := by
  have hsort := (reachableReg_invariant h).1
  constructor
  · simp [closeLocked]
  · intro hpos
    cases l with
    | nil => simp at hi
    | cons a rest =>
        obtain ⟨j, rfl⟩ : ∃ j, i = j + 1 := ⟨i - 1, by omega⟩
        have hj : j < rest.length := by
          simpa [Nat.succ_lt_succ_iff] using hi
        rw [List.sorted_cons] at hsort
        have hmem : rest.getD j 0 ∈ rest := by
          rw [List.getD_eq_getElem rest 0 hj]
          exact List.getElem_mem hj
        have hle : a ≤ rest.getD j 0 := hsort.1 _ hmem
        have herase : (a :: rest).eraseIdx (j + 1) = a :: rest.eraseIdx j := rfl
        simp only [closeLocked, herase, snapshotList.earliest, List.getD_cons_succ,
          gt_iff_lt, decide_eq_false_iff_not, not_lt]
        exact hle

/-- Counterexample to C7 as stated: the reachable one-element registry
holding seqNum `math.MaxUint64`. Its sole snapshot is the current earliest
entry and removing it makes `earliest()` the sentinel ("infinity"), yet
`closeLocked` does not make the elision scheduling call, because
`earliest() > seqNum` fails at the sentinel value. -/
theorem closeLocked_no_trigger_at_sentinel_seqNum :
    ReachableReg [maxUint64] maxUint64 ∧
    snapshotList.earliest [maxUint64] = maxUint64 ∧
    snapshotList.earliest (([maxUint64] : List Nat).eraseIdx 0) = maxUint64 ∧
    (closeLocked [maxUint64] 0).2 = false := by
  refine ⟨?_, rfl, rfl, ?_⟩
  · exact ReachableReg.push [] 0 maxUint64 ReachableReg.init (Nat.zero_le _)
      (by norm_num [maxUint64])
  · simp [closeLocked, snapshotList.earliest]

/-- Witness for C7 (amended): on the registry `[3, 5]`, closing the
non-earliest snapshot (position 1, seqNum 5) does not trigger the elision
call; closing the earliest (position 0, seqNum 3) does, as the earliest
seqNum rises from 3 to 5. -/
theorem closeLocked_elision_trigger_witness :
    (closeLocked [3, 5] 1).2 = false ∧
    (closeLocked [3, 5] 0).2 = true := by
  have hreach : ReachableReg [3, 5] 5 :=
    ReachableReg.push [3] 3 5
      (ReachableReg.push [] 0 3 ReachableReg.init (Nat.zero_le _) (by norm_num))
      (by norm_num) (by norm_num)
  refine ⟨(closeLocked_elision_trigger [3, 5] 5 hreach 1 (by norm_num)).2
    (by norm_num), ?_⟩
  exact (closeLocked_elision_trigger [3, 5] 5 hreach 0 (by norm_num)).1.mpr
    (by norm_num [snapshotList.earliest])

end PebbleSnapshot
